import Mathlib

/-!
Verification of the mail-mcp-bridge core against its specification.

The Python sources are shallowly embedded:
  * pure string manipulation is translated to executable Lean functions on
    `String` (byte strings are modelled as decoded text, raw payload bytes as
    `List Nat`);
  * every interaction with the outside world (the SQLite envelope index, the
    filesystem, the Python `email` library, `urllib` unquoting, subprocess
    `find` output) is modelled as a field of an explicit environment record,
    so each top-level operation is a total function of its environment;
  * Python exceptions that the code catches and converts to result
    dictionaries are modelled with `Except` / failure constructors.
-/

/-! ## String primitives (Python `in`, `startswith`, `replace`, `split`, `strip`) -/

/-- Does `needle` occur as a contiguous sublist of the character list? -/
def listContainsSub (needle : List Char) : List Char → Bool
  | [] => decide (needle = [])
  | c :: rest => needle.isPrefixOf (c :: rest) || listContainsSub needle rest

/-- Python `pat in hay` for strings. -/
def strContains (hay pat : String) : Bool :=
  listContainsSub pat.toList hay.toList

/-- Python `s.startswith(pre)`. -/
def strStartsWith (s pre : String) : Bool :=
  pre.toList.isPrefixOf s.toList

/-- Fuel-driven worker for `strReplaceAll`; the fuel is the input length,
which bounds the number of steps since every step consumes a character. -/
def replaceAllAux (pat rep : List Char) : Nat → List Char → List Char
  | 0, l => l
  | _ + 1, [] => []
  | fuel + 1, c :: rest =>
    if pat.isPrefixOf (c :: rest) then
      rep ++ replaceAllAux pat rep fuel (List.drop (pat.length - 1) rest)
    else
      c :: replaceAllAux pat rep fuel rest

/-- Python `s.replace(pat, rep)`: replace every non-overlapping occurrence,
scanning left to right. -/
def strReplaceAll (s pat rep : String) : String :=
  String.mk (replaceAllAux pat.toList rep.toList s.toList.length s.toList)

/-- Fuel-driven worker for `strSplitOn`. -/
def splitOnLAux (sep : List Char) : Nat → List Char → List (List Char)
  | _, [] => [[]]
  | 0, l => [l]
  | fuel + 1, c :: rest =>
    if sep.isPrefixOf (c :: rest) then
      [] :: splitOnLAux sep fuel (List.drop (sep.length - 1) rest)
    else
      match splitOnLAux sep fuel rest with
      | [] => [[c]]
      | g :: gs => (c :: g) :: gs

/-- Python `s.split(sep)` for a non-empty separator. -/
def strSplitOn (s sep : String) : List String :=
  (splitOnLAux sep.toList s.toList.length s.toList).map String.mk

/-- ASCII whitespace, as stripped by Python `str.strip()`. -/
def isSpaceChar (c : Char) : Bool :=
  c = ' ' || c = '\t' || c = '\n' || c = '\r' || c = '\x0b' || c = '\x0c'

/-- Python `s.strip()` restricted to ASCII whitespace. -/
def strStrip (s : String) : String :=
  String.mk (((s.toList.dropWhile isSpaceChar).reverse.dropWhile isSpaceChar).reverse)

/-- Python `s.strip(chars)`: remove the given characters from both ends. -/
def stripChars (s : String) (cs : List Char) : String :=
  String.mk (((s.toList.dropWhile (· ∈ cs)).reverse.dropWhile (· ∈ cs)).reverse)

/-- `message_id.strip('<>')` from the sources. -/
def stripAngle (s : String) : String :=
  stripChars s ['<', '>']

/-- Worker for `splitFirst`. -/
def splitFirstAux (c : Char) : List Char → List Char × Option (List Char)
  | [] => ([], none)
  | x :: xs =>
    if x = c then ([], some xs)
    else
      let r := splitFirstAux c xs
      (x :: r.1, r.2)

/-- Python `s.split(c, 1)`: the part before the first occurrence of `c`, and
the remainder after it when `c` occurs. -/
def splitFirst (s : String) (c : Char) : String × Option String :=
  let r := splitFirstAux c s.toList
  (String.mk r.1, r.2.map String.mk)

/-- `''.join(parts)` — concatenation of a list of strings. -/
def strJoin (l : List String) : String :=
  String.mk (l.map String.data).flatten

/-- Python `os.path.join(a, b)` for a relative `b`. -/
def osJoin (a b : String) : String :=
  if a = "" then b
  else if a.toList.getLast? = some '/' then a ++ b
  else a ++ "/" ++ b

/-- `pathlib` `/` on a base path and a relative name. -/
def pathJoin (a b : String) : String :=
  a ++ "/" ++ b

/-! ## Python truthiness helpers -/

/-- Truthiness of an optional string (`None` and `''` are falsy). -/
def truthyStr : Option String → Bool
  | none => false
  | some s => s ≠ ""

/-- Truthiness of an optional integer (`None` and `0` are falsy). -/
def truthyInt : Option Int → Bool
  | none => false
  | some v => v ≠ 0

/-- Truthiness of an optional byte string (`None` and `b''` are falsy). -/
def bytesTruthy : Option (List Nat) → Bool
  | none => false
  | some b => b ≠ []

/-! ## Archive reader — `.emlx` framing

Shared verbatim by `parse_email.py` (lines 91-106) and
`extract_attachments.py` (lines 113-127).  File lines are modelled as the
text obtained by `line.decode('utf-8', errors='ignore')`. -/

/-- Detection of the Apple plist trailer start, `parse_email.py` line 102. -/
def hasPlistMarker (line : String) : Bool :=
  strContains line "<?xml version" ||
    strContains line "<!DOCTYPE plist" ||
      strContains line "<plist version"

/-- The accumulation loop of `parse_email.py` lines 98-104: keep lines until
one carries a plist start marker. -/
def collectEmailLines : List String → List String
  | [] => []
  | l :: ls => if hasPlistMarker l then [] else l :: collectEmailLines ls

/-- `.emlx` framing: reject files of fewer than two lines, drop the size
preamble line, and join the message lines before the plist trailer
(`parse_email.py` lines 91-106). -/
def archiveRead (lines : List String) : Except String String :=
  if lines.length < 2 then .error "Invalid file format or empty file"
  else .ok (strJoin (collectEmailLines (lines.drop 1)))

/-! ## Header decoder — `decode_header_value`

Identical in `parse_email.py` lines 17-43 and `extract_attachments.py`
lines 17-43.  The Python standard library's `email.header.decode_header`
and the byte-level codecs are external collaborators; they enter the
embedding as explicit arguments:
  * `decHdr` returns the chunk list `decode_header(value)` — each chunk is
    either already-decoded text (`Sum.inl`) or raw bytes (`Sum.inr`) plus an
    optional declared charset;
  * `decodeAs bytes enc` is `bytes.decode(enc)`, `none` when that raises
    `LookupError`/`UnicodeDecodeError`;
  * `utf8Replace` is `bytes.decode('utf-8', errors='replace')`. -/

/-- One entry of the `decode_header` result. -/
def HeaderChunk : Type := (String ⊕ List Nat) × Option String

/-- `decode_header_value` from the sources, over the library oracles. -/
def decode_header_value (decHdr : String → List HeaderChunk)
    (decodeAs : List Nat → String → Option String)
    (utf8Replace : List Nat → String) (value : String) : String :=
  if value = "" then ""
  else
    strJoin ((decHdr value).map (fun ce =>
      match ce with
      | (Sum.inr bytes, some enc) =>
        match decodeAs bytes enc with
        | some s => s
        | none => utf8Replace bytes
      | (Sum.inr bytes, none) => utf8Replace bytes
      | (Sum.inl s, _) => s))

/-! ## MIME tree model — `parse_email.py` -/

/-- One part of the walked MIME tree (`msg.walk()` order).  The fields record
what the Python `email` library reports for the part:
`get_content_type()`, `str(part.get('Content-Disposition', ''))`,
`get_filename()`, `get_payload(decode=True)` (bytes, `none` when the library
returns `None`), and the text produced by the charset-decode of the payload
with its utf-8/replace fallback (`parse_email.py` lines 166-172). -/
structure EmailPart where
  contentType : String
  dispositionHeader : String
  filename : Option String
  payload : Option (List Nat)
  decodedText : String
deriving DecidableEq

/-- Attachment classification, `parse_email.py` lines 139-142. -/
def is_attachment (p : EmailPart) : Bool :=
  strContains p.dispositionHeader "attachment" ||
    (truthyStr p.filename &&
      !(p.contentType == "text/plain" || p.contentType == "text/html"))

/-- `len(payload) if payload else 0`, `parse_email.py` line 154. -/
def sizeBytes (payload : Option (List Nat)) : Nat :=
  if bytesTruthy payload then (payload.getD []).length else 0

/-- Attachment metadata entry, `parse_email.py` lines 156-160. -/
structure AttachmentMeta where
  filename : String
  mime_type : String
  size_bytes : Nat
deriving DecidableEq

/-- The multipart walk loop of `parse_email.py` lines 131-172: one pass over
the parts accumulating the body text and the attachment list.  `dec` is
`decode_header_value` with its library oracles applied. -/
def walkParts (dec : String → String) :
    List EmailPart → String → List AttachmentMeta → String × List AttachmentMeta
  | [], body, atts => (body, atts)
  | p :: ps, body, atts =>
    if is_attachment p then
      if truthyStr p.filename then
        walkParts dec ps body (atts ++
          [{ filename := dec (p.filename.getD ""), mime_type := p.contentType,
             size_bytes := sizeBytes p.payload }])
      else
        walkParts dec ps body atts
    else if p.contentType == "text/plain" && body == "" then
      if bytesTruthy p.payload then walkParts dec ps p.decodedText atts
      else walkParts dec ps body atts
    else
      walkParts dec ps body atts

/-- The parsed message object returned by `email.message_from_bytes`,
restricted to what `parse_email.py` consumes.  For a non-multipart message
the part-level fields describe the message itself; `rawPayloadStr` is
`str(msg.get_payload())` used on the non-plain single-part branch. -/
structure MimeMessage where
  isMultipart : Bool
  messageId : String
  subjectRaw : String
  fromRaw : String
  toRaw : String
  ccRaw : String
  dateRaw : String
  referencesRaw : String
  inReplyToRaw : String
  parts : List EmailPart
  contentType : String
  payload : Option (List Nat)
  decodedText : String
  rawPayloadStr : String
deriving DecidableEq

/-- Single-part body extraction, `parse_email.py` lines 173-186. -/
def singleBody (msg : MimeMessage) : String :=
  if msg.contentType = "text/plain" then
    if bytesTruthy msg.payload then msg.decodedText else ""
  else msg.rawPayloadStr

/-- The success payload of `parse_email_file`. -/
structure ParsedMessage where
  message_id : String
  subject : String
  from_addr : String
  to_addr : String
  cc_addr : String
  date : String
  references : String
  in_reply_to : String
  body_text : String
  attachments : List AttachmentMeta
deriving DecidableEq

/-- The result dictionary of `parse_email_file`: `success` True with the
message fields, or `success` False with an error string. -/
inductive ParseResult where
  | ok (m : ParsedMessage)
  | failure (error : String)
deriving DecidableEq

/-- External world of `parse_email_file`: `fsFile path` is the line list read
from the file (`none` when the file does not exist), and `parseMsg raw` is
`email.message_from_bytes(raw, policy=compat32)` — `.error` when the library
raises, carrying the exception text. -/
structure ParseEnv where
  fsFile : String → Option (List String)
  parseMsg : String → Except String MimeMessage

/-- `parse_email_file` from `parse_email.py` lines 46-206. -/
def parse_email_file (env : ParseEnv) (dec : String → String)
    (file_path : String) : ParseResult :=
  match env.fsFile file_path with
  | none => .failure ("File not found: " ++ file_path)
  | some lines =>
    match archiveRead lines with
    | .error e => .failure e
    | .ok raw =>
      match env.parseMsg raw with
      | .error e => .failure ("Parse failed: " ++ e)
      | .ok msg =>
        let bodyAtts :=
          if msg.isMultipart then walkParts dec msg.parts "" []
          else (singleBody msg, [])
        .ok { message_id := msg.messageId, subject := dec msg.subjectRaw,
              from_addr := dec msg.fromRaw, to_addr := dec msg.toRaw,
              cc_addr := dec msg.ccRaw, date := msg.dateRaw,
              references := msg.referencesRaw, in_reply_to := msg.inReplyToRaw,
              body_text := strStrip bodyAtts.1, attachments := bodyAtts.2 }

/-- Body text of a parse result, `""` on failure. -/
def bodyTextOf (r : ParseResult) : String :=
  match r with
  | .ok m => m.body_text
  | .failure _ => ""

/-- Attachment list of a parse result, `[]` on failure. -/
def attachmentsOf (r : ParseResult) : List AttachmentMeta :=
  match r with
  | .ok m => m.attachments
  | .failure _ => []

/-- A part that the walk loop accepts as the body: plain text, not an
attachment, with a truthy payload whose decode is non-empty. -/
def plainBodyCandidate (p : EmailPart) : Bool :=
  !is_attachment p && p.contentType == "text/plain" &&
    bytesTruthy p.payload && p.decodedText != ""

/-- The body the walk loop actually produces: the decoded text of the first
`plainBodyCandidate`, or `""` when there is none. -/
def firstPlainBody (parts : List EmailPart) : String :=
  match parts.find? plainBodyCandidate with
  | some p => p.decodedText
  | none => ""

/-- Body selection as claim C4 states it (taken from the spec's words, for
comparison): the decoded text of the first text/plain part not classified as
an attachment, all later plain-text parts ignored. -/
def claimedFirstPlainBody (parts : List EmailPart) : String :=
  match parts.find? (fun p => !is_attachment p && p.contentType == "text/plain") with
  | some p => p.decodedText
  | none => ""

/-- The attachment record the walk loop produces for a part, `none` when the
part is not recorded. -/
def recordedAttachment (dec : String → String) (p : EmailPart) :
    Option AttachmentMeta :=
  if is_attachment p && truthyStr p.filename then
    some { filename := dec (p.filename.getD ""), mime_type := p.contentType,
           size_bytes := sizeBytes p.payload }
  else none

/-! ## Attachment materializer — `extract_attachments.py` -/

/-- `get_attachment_base_dir` (`extract_attachments.py` lines 46-57 and
`cleanup_attachments.py` lines 13-24): `envAttachmentPath` is the value of
the `MAIL_ATTACHMENT_PATH` environment variable. -/
def get_attachment_base_dir (envAttachmentPath : Option String) : String :=
  osJoin (envAttachmentPath.getD "/tmp") "mail-mcp-attachments"

/-- One entry of the `extracted` list (`extract_attachments.py`
lines 207-213). -/
structure ExtractedItem where
  filename : String
  safe_filename : String
  path : String
  mime_type : String
  size_bytes : Nat
deriving DecidableEq

/-- The result dictionary of `extract_attachments`.  The `not_found` Python
list is built from a `set`, whose iteration order is unspecified, so it is
modelled as a `Finset`. -/
inductive ExtractResult where
  | ok (base_dir : String) (message_dir : String)
      (extracted : List ExtractedItem) (not_found : Finset String)
  | failure (error : String)
deriving DecidableEq

/-- External world of `extract_attachments`:
  * `fileExists` — `Path(file_path).exists()`;
  * `lines` — the line list read from the archive file;
  * `parseParts raw` — the walked part list of
    `email.message_from_bytes(raw)`, `.error` when the library raises;
  * `envAttachmentPath` — the `MAIL_ATTACHMENT_PATH` environment variable;
  * `mkdirOk` / `mkdirMsg` — whether `message_dir.mkdir(...)` succeeds and
    the exception text when it does not;
  * `fsSearch name payload` — the payload after the fallback search of the
    sibling `Attachments` store (`extract_attachments.py` lines 163-197)
    for decoded filename `name`, starting from inline payload `payload`;
    the search leaves the payload unchanged when it finds nothing or raises;
  * `writeOk path` / `writeMsg` — whether writing `path` succeeds and the
    exception text when it does not. -/
structure ExtractEnv where
  fileExists : Bool
  lines : List String
  parseParts : String → Except String (List EmailPart)
  envAttachmentPath : Option String
  mkdirOk : Bool
  mkdirMsg : String
  fsSearch : String → Option (List Nat) → Option (List Nat)
  writeOk : String → Bool
  writeMsg : String

/-- The part-walk loop of `extract_attachments.py` lines 143-216, carrying
the `extracted` list and the pending `filenames_set`.  An `.error` is a
Python exception propagating to the outer handler. -/
def extractLoop (env : ExtractEnv) (dec : String → String) (mdir : String) :
    List EmailPart → List ExtractedItem → Finset String →
      Except String (List ExtractedItem × Finset String)
  | [], ext, pend => .ok (ext, pend)
  | p :: ps, ext, pend =>
    if is_attachment p && truthyStr p.filename then
      let decName := dec (p.filename.getD "")
      if decName ∈ pend then
        let p1 := p.payload
        let p2 :=
          if !bytesTruthy p1 || (p1.getD []).length < 100 then
            env.fsSearch decName p1
          else p1
        if bytesTruthy p2 then
          let safe := String.mk (decName.toList.map
            (fun c => if c = '/' || c = '\\' || c = ':' then '_' else c))
          let outPath := pathJoin mdir safe
          if env.writeOk outPath then
            extractLoop env dec mdir ps
              (ext ++ [{ filename := decName, safe_filename := safe,
                         path := outPath, mime_type := p.contentType,
                         size_bytes := (p2.getD []).length }])
              (pend.erase decName)
          else .error ("Extraction failed: " ++ env.writeMsg)
        else extractLoop env dec mdir ps ext pend
      else extractLoop env dec mdir ps ext pend
    else extractLoop env dec mdir ps ext pend

/-- `extract_attachments` from `extract_attachments.py` lines 60-233.
The second component lists the directories whose creation the call
attempts (the per-message output directory, once reached). -/
def extract_attachments (env : ExtractEnv) (dec : String → String)
    (file_path message_id : String) (filenames : List String)
    (output_dir : Option String) : ExtractResult × List String :=
  if env.fileExists = false then
    (.failure ("File not found: " ++ file_path), [])
  else if filenames = [] then
    (.failure "No filenames specified for extraction", [])
  else
    match archiveRead env.lines with
    | .error e => (.failure e, [])
    | .ok raw =>
      match env.parseParts raw with
      | .error e => (.failure ("Extraction failed: " ++ e), [])
      | .ok parts =>
        let base :=
          match output_dir with
          | some s =>
            if s ≠ "" then s else get_attachment_base_dir env.envAttachmentPath
          | none => get_attachment_base_dir env.envAttachmentPath
        let mdir := pathJoin base (stripAngle message_id)
        if env.mkdirOk = false then
          (.failure ("Extraction failed: " ++ env.mkdirMsg), [mdir])
        else
          match extractLoop env dec mdir parts [] filenames.toFinset with
          | .error e => (.failure e, [mdir])
          | .ok r => (.ok base mdir r.1 r.2, [mdir])

/-- The set of filenames reported in an `extracted` list. -/
def extractedNames (l : List ExtractedItem) : Finset String :=
  (l.map (fun i => i.filename)).toFinset

/-! ## Cleanup — `cleanup_attachments.py` -/

/-- One entry of the `cleaned` list (`cleanup_attachments.py`
lines 86-91). -/
structure CleanedItem where
  message_id : String
  path : String
  files_removed : Nat
  size_freed : Nat
deriving DecidableEq

/-- The result dictionary of `cleanup_attachments`; `noteMissing` records
the `"note": "Base directory does not exist"` field. -/
inductive CleanupResult where
  | ok (base_dir : String) (cleaned : List CleanedItem)
      (not_found : List String) (noteMissing : Bool)
  | failure (base_dir : String) (error : String)
deriving DecidableEq

/-- External world of `cleanup_attachments`:
  * `envAttachmentPath` — the `MAIL_ATTACHMENT_PATH` environment variable;
  * `baseExists base` — `Path(base).exists()`;
  * `dirsUnder base` — the names of the existing message directories under
    `base`;
  * `rmtreeOk path` / `rmtreeMsg` — whether `shutil.rmtree(path)` succeeds
    and the exception text when it does not;
  * `fileCount path` / `dirSize path` — the file count and total byte size
    computed by the `rglob` walk of `path`. -/
structure CleanupEnv where
  envAttachmentPath : Option String
  baseExists : String → Bool
  dirsUnder : String → List String
  rmtreeOk : String → Bool
  rmtreeMsg : String
  fileCount : String → Nat
  dirSize : String → Nat

/-- The per-message loop of `cleanup_attachments.py` lines 67-99, threading
the set of still-existing directories. -/
def cleanupLoop (env : CleanupEnv) (base : String) :
    List String → List String → List CleanedItem → List String → CleanupResult
  | [], _, cl, nf => .ok base cl nf false
  | m :: ms, dirs, cl, nf =>
    let name := stripAngle m
    let mdir := pathJoin base name
    if name ∈ dirs then
      if env.rmtreeOk mdir then
        cleanupLoop env base ms (dirs.erase name)
          (cl ++ [{ message_id := m, path := mdir,
                    files_removed := env.fileCount mdir,
                    size_freed := env.dirSize mdir }]) nf
      else .failure base ("Failed to remove " ++ mdir ++ ": " ++ env.rmtreeMsg)
    else cleanupLoop env base ms dirs cl (nf ++ [m])

/-- `base_dir = base_dir or get_attachment_base_dir()`
(`cleanup_attachments.py` line 52). -/
def resolveBaseDir (env : CleanupEnv) (base_dir : Option String) : String :=
  match base_dir with
  | some s => if s ≠ "" then s else get_attachment_base_dir env.envAttachmentPath
  | none => get_attachment_base_dir env.envAttachmentPath

/-- `cleanup_attachments` from `cleanup_attachments.py` lines 27-106. -/
def cleanup_attachments (env : CleanupEnv) (message_ids : List String)
    (base_dir : Option String) : CleanupResult :=
  let base := resolveBaseDir env base_dir
  if env.baseExists base = false then .ok base [] message_ids true
  else cleanupLoop env base message_ids (env.dirsUnder base) [] []

/-! ## Identifier resolver and thread assembler —
`get_email_path.py`, `get_thread_paths.py` -/

/-- `if not message_id.startswith('<'): message_id = f'<{message_id}>'`
(`get_email_path.py` lines 34-35, `get_thread_paths.py` lines 32-33). -/
def normalizeMsgId (m : String) : String :=
  if strStartsWith m "<" then m else "<" ++ m ++ ">"

/-- External world of the resolver scripts:
  * `dbExists` — `MAIL_DB_PATH.exists()`;
  * `homeV10` — the `MAIL_V10_PATH` store root as a string;
  * `lookupMsg mid` — the `fetchone` row of the rowid/mailbox-url query of
    `get_email_path.py` lines 46-57 (`none` when no row matches; each field
    `none` when the column is SQL NULL);
  * `conversationOf mid` — the conversation id of the query of
    `get_thread_paths.py` lines 42-50 (`none` for no row or NULL);
  * `threadRows cid` — the `message_id_header` column of the query of
    `get_thread_paths.py` lines 72-82, in ascending `date_sent` order;
  * `unquote` — `urllib.parse.unquote`;
  * `dirExists path` — `Path(path).exists()`;
  * `findStdout dir pattern` — the stdout of
    `find dir -name pattern` (`get_email_path.py` lines 87-92). -/
structure MailFS where
  dbExists : Bool
  homeV10 : String
  lookupMsg : String → Option (Option Int × Option String)
  conversationOf : String → Option Int
  threadRows : Int → List (Option String)
  unquote : String → String
  dirExists : String → Bool
  findStdout : String → String → String

/-- The body of `get_email_path` after the database-existence check
(`get_email_path.py` lines 44-98). -/
def get_email_path_run (env : MailFS) (message_id : String) : Option String :=
  let mid := normalizeMsgId message_id
  match env.lookupMsg mid with
  | none => none
  | some row =>
    if !truthyInt row.1 || !truthyStr row.2 then none
    else
      let url := row.2.getD ""
      let rowid := row.1.getD 0
      if !strStartsWith url "imap://" then none
      else
        let stripped := strReplaceAll url "imap://" ""
        let parts := splitFirst stripped '/'
        let account_uuid := parts.1
        let mailbox_path :=
          match parts.2 with
          | some r => env.unquote r
          | none => ""
        let mbox_path :=
          (strSplitOn mailbox_path "/").foldl
            (fun acc part =>
              if part ≠ "" then acc ++ "/" ++ part ++ ".mbox" else acc)
            (env.homeV10 ++ "/" ++ account_uuid)
        if env.dirExists mbox_path then
          let out := env.findStdout mbox_path (toString rowid ++ "*.emlx")
          let files := (strSplitOn (strStrip out) "\n").filter (fun f => f ≠ "")
          match files with
          | f :: _ => some f
          | [] => none
        else none

/-- `get_email_path` from `get_email_path.py` lines 23-101; the missing
database raises `FileNotFoundError`, modelled as `.error`. -/
def get_email_path (env : MailFS) (message_id : String) :
    Except String (Option String) :=
  if env.dbExists then .ok (get_email_path_run env message_id)
  else .error "Mail database not found"

/-- `get_conversation_id` from `get_thread_paths.py` lines 22-52. -/
def get_conversation_id (env : MailFS) (message_id : String) :
    Except String (Option Int) :=
  let mid := normalizeMsgId message_id
  if env.dbExists then .ok (env.conversationOf mid)
  else .error "Mail database not found"

/-- `get_thread_message_ids` from `get_thread_paths.py` lines 55-86;
`[row[0] for row in results if row[0]]` keeps only truthy header values. -/
def get_thread_message_ids (env : MailFS) (conversation_id : Int) :
    Except String (List String) :=
  if env.dbExists then
    .ok ((env.threadRows conversation_id).filterMap (fun r =>
      match r with
      | some s => if s ≠ "" then some s else none
      | none => none))
  else .error "Mail database not found"

/-- The per-message resolution loop of `get_thread_paths.py` lines 113-120:
truthy paths are kept, falsy ones become `None` entries only when
`include_not_found` is set. -/
def threadLoop (env : MailFS) (include_not_found : Bool) :
    List String → Except String (List (Option String))
  | [] => .ok []
  | m :: ms =>
    match get_email_path env m with
    | .error e => .error e
    | .ok fp =>
      match threadLoop env include_not_found ms with
      | .error e => .error e
      | .ok rest =>
        match fp with
        | some p =>
          if p ≠ "" then .ok (some p :: rest)
          else if include_not_found then .ok (none :: rest) else .ok rest
        | none =>
          if include_not_found then .ok (none :: rest) else .ok rest

/-- `get_thread_paths` from `get_thread_paths.py` lines 89-122.  Note that
`if not conversation_id` treats both a missing and a zero conversation id
as absent. -/
def get_thread_paths (env : MailFS) (message_id : String)
    (include_not_found : Bool) : Except String (List (Option String)) :=
  match get_conversation_id env message_id with
  | .error e => .error e
  | .ok cid =>
    if !truthyInt cid then .ok []
    else
      match get_thread_message_ids env (cid.getD 0) with
      | .error e => .error e
      | .ok ids =>
        if ids = [] then .ok []
        else threadLoop env include_not_found ids

/-- The entry `get_thread_paths` produces for one message id when
`include_not_found` is set: the resolved path when it is truthy, `none`
otherwise. -/
def resolveOpt (env : MailFS) (message_id : String) : Option String :=
  match get_email_path_run env message_id with
  | some p => if p ≠ "" then some p else none
  | none => none

/-! ## Concrete instances used to exercise the theorems -/

/-- A mail store whose index holds no row at all. -/
def envC1 : MailFS :=
  { dbExists := true, homeV10 := "/h", lookupMsg := fun _ => none,
    conversationOf := fun _ => none, threadRows := fun _ => [],
    unquote := fun s => s, dirExists := fun _ => false,
    findStdout := fun _ _ => "" }

/-- A mail store where the seed message has conversation id 1 with a single
thread member that resolves to no file. -/
def envW7 : MailFS :=
  { dbExists := true, homeV10 := "/h", lookupMsg := fun _ => none,
    conversationOf := fun _ => some 1, threadRows := fun _ => [some "<a>"],
    unquote := fun s => s, dirExists := fun _ => false,
    findStdout := fun _ _ => "" }

/-- A mail store where the seed message has conversation id 0 while the
index still lists one member for that conversation. -/
def envC7 : MailFS :=
  { dbExists := true, homeV10 := "/h", lookupMsg := fun _ => none,
    conversationOf := fun _ => some 0, threadRows := fun _ => [some "<a>"],
    unquote := fun s => s, dirExists := fun _ => false,
    findStdout := fun _ _ => "" }

/-- A text/plain part whose inline payload is the empty byte string. -/
def partEmptyPlain : EmailPart :=
  { contentType := "text/plain", dispositionHeader := "", filename := none,
    payload := some [], decodedText := "" }

/-- A later text/plain part that decodes to "Hi". -/
def partHiPlain : EmailPart :=
  { contentType := "text/plain", dispositionHeader := "", filename := none,
    payload := some [72, 105], decodedText := "Hi" }

/-- An attachment-disposition part that carries no filename. -/
def partNoName : EmailPart :=
  { contentType := "application/pdf", dispositionHeader := "attachment",
    filename := none, payload := some [1, 2, 3], decodedText := "" }

/-- A multipart message whose first plain part has an empty payload. -/
def msgC4 : MimeMessage :=
  { isMultipart := true, messageId := "<m@x>", subjectRaw := "s",
    fromRaw := "f", toRaw := "t", ccRaw := "", dateRaw := "d",
    referencesRaw := "", inReplyToRaw := "",
    parts := [partEmptyPlain, partHiPlain], contentType := "multipart/mixed",
    payload := none, decodedText := "", rawPayloadStr := "" }

/-- A multipart message whose only part is `partNoName`. -/
def msgC5 : MimeMessage :=
  { isMultipart := true, messageId := "<m@x>", subjectRaw := "s",
    fromRaw := "f", toRaw := "t", ccRaw := "", dateRaw := "d",
    referencesRaw := "", inReplyToRaw := "",
    parts := [partNoName], contentType := "multipart/mixed",
    payload := none, decodedText := "", rawPayloadStr := "" }

/-- Parse environment delivering `msgC4` for a well-framed two-line file. -/
def envC4 : ParseEnv :=
  { fsFile := fun _ => some ["1", "Subject: x"],
    parseMsg := fun _ => .ok msgC4 }

/-- Parse environment delivering `msgC5` for a well-framed two-line file. -/
def envC5 : ParseEnv :=
  { fsFile := fun _ => some ["1", "Subject: x"],
    parseMsg := fun _ => .ok msgC5 }

/-- Extraction environment: existing well-framed file, a message with no
parts, all filesystem operations succeeding. -/
def envW : ExtractEnv :=
  { fileExists := true, lines := ["1", "B"], parseParts := fun _ => .ok [],
    envAttachmentPath := none, mkdirOk := true, mkdirMsg := "",
    fsSearch := fun _ p => p, writeOk := fun _ => true, writeMsg := "" }

/-- Extraction environment whose archive file does not exist. -/
def envC10 : ExtractEnv :=
  { fileExists := false, lines := [], parseParts := fun _ => .ok [],
    envAttachmentPath := none, mkdirOk := true, mkdirMsg := "",
    fsSearch := fun _ p => p, writeOk := fun _ => true, writeMsg := "" }

/-- Cleanup environment whose base directory does not exist. -/
def envC8 : CleanupEnv :=
  { envAttachmentPath := none, baseExists := fun _ => false,
    dirsUnder := fun _ => [], rmtreeOk := fun _ => true, rmtreeMsg := "",
    fileCount := fun _ => 0, dirSize := fun _ => 0 }

/-! ### Theorems -/

theorem collectEmailLines_eq_takeWhile (lines : List String) :
    collectEmailLines lines = lines.takeWhile (fun l => !hasPlistMarker l) := by
  induction lines with
  | nil => rfl
  | cons l ls ih =>
    simp only [collectEmailLines, List.takeWhile]
    cases h : hasPlistMarker l with
    | true => simp [h]
    | false => simp [h, ih]

/-- C3: a container file with fewer than two lines yields the format-failure
result; otherwise the returned raw payload is exactly the concatenation of
the lines from the second line on, up to but excluding the first line that
carries one of the three plist trailer start markers. -/
theorem archive_read_frames (lines : List String) :
    archiveRead lines =
      if lines.length < 2 then .error "Invalid file format or empty file"
      else .ok (strJoin ((lines.drop 1).takeWhile (fun l => !hasPlistMarker l))) := by
  unfold archiveRead
  rw [collectEmailLines_eq_takeWhile]

theorem strJoin_singleton (s : String) : strJoin [s] = s := by
  cases s with
  | mk data => simp [strJoin]

/-- C9: a header value on which the library decoder reports a single
already-decoded chunk equal to the input — which is exactly what
`email.header.decode_header` returns for a value containing no RFC 2047
encoded words — is returned unchanged by `decode_header_value`. -/
theorem decode_header_value_plain_id (decHdr : String → List HeaderChunk)
    (decodeAs : List Nat → String → Option String)
    (utf8Replace : List Nat → String) (value : String)
    (h : decHdr value = [(Sum.inl value, none)]) :
    decode_header_value decHdr decodeAs utf8Replace value = value := by
  unfold decode_header_value
  by_cases hv : value = ""
  · simp [hv]
  · rw [if_neg hv, h]
    simpa using strJoin_singleton value

/-- Witness for `decode_header_value_plain_id` at the plain value "hello". -/
theorem decode_header_value_plain_id_witness :
    decode_header_value (fun s => [(Sum.inl s, none)]) (fun _ _ => none)
      (fun _ => "") "hello" = "hello" :=
  decode_header_value_plain_id (fun s => [(Sum.inl s, none)]) (fun _ _ => none)
    (fun _ => "") "hello" rfl

/-- C1: with the index file present, a Message-ID whose index query yields
no row, or a row whose rowid or mailbox-url column is NULL, resolves to the
not-found value `none` without an error. -/
theorem get_email_path_absent_not_found (env : MailFS) (m : String)
    (hdb : env.dbExists = true)
    (habs : env.lookupMsg (normalizeMsgId m) = none ∨
      ∃ r u, env.lookupMsg (normalizeMsgId m) = some (r, u) ∧
        (r = none ∨ u = none)) :
    get_email_path env m = .ok none := by
  unfold get_email_path
  rw [hdb, if_pos rfl]
  unfold get_email_path_run
  dsimp only
  rcases habs with h | ⟨r, u, h, hru⟩
  · rw [h]
  · rw [h]
    dsimp only
    rcases hru with rfl | rfl
    · simp [truthyInt]
    · simp [truthyStr]

/-- Witness for `get_email_path_absent_not_found` on the empty index. -/
theorem get_email_path_absent_not_found_witness :
    envC1.dbExists = true ∧ get_email_path envC1 "<a@b>" = .ok none :=
  ⟨rfl, get_email_path_absent_not_found envC1 "<a@b>" rfl (Or.inl rfl)⟩

theorem string_append_ne_empty (a b : String) (h : a ≠ "") : a ++ b ≠ "" := by
  intro hab
  apply h
  have hd : (a ++ b).data = ([] : List Char) := by rw [hab]
  rw [String.data_append] at hd
  rcases List.append_eq_nil.mp hd with ⟨ha, _⟩
  exact String.ext ha

/-- C6: `parse_email_file` is total — every input yields either a success
value or a failure value whose non-empty error string carries the cause
(missing file, malformed framing, or a parse exception). -/
theorem parse_email_file_total_result (env : ParseEnv) (dec : String → String)
    (path : String) :
    match parse_email_file env dec path with
    | .failure e =>
      e ≠ "" ∧
        (e = "File not found: " ++ path ∨
          e = "Invalid file format or empty file" ∨
          ∃ c, e = "Parse failed: " ++ c)
    | .ok _ => True := by
  unfold parse_email_file
  cases hf : env.fsFile path with
  | none =>
    exact ⟨string_append_ne_empty _ _ (by decide), Or.inl rfl⟩
  | some lines =>
    dsimp only
    unfold archiveRead
    by_cases hl : lines.length < 2
    · rw [if_pos hl]
      exact ⟨by decide, Or.inr (Or.inl rfl)⟩
    · rw [if_neg hl]
      dsimp only
      cases hp : env.parseMsg (strJoin (collectEmailLines (lines.drop 1))) with
      | error e =>
        exact ⟨string_append_ne_empty _ _ (by decide), Or.inr (Or.inr ⟨e, rfl⟩)⟩
      | ok msg => trivial

theorem walkParts_body_const (dec : String → String) (parts : List EmailPart)
    (body : String) (atts : List AttachmentMeta) (hb : body ≠ "") :
    (walkParts dec parts body atts).1 = body := by
  induction parts generalizing atts with
  | nil => rfl
  | cons p ps ih =>
    have hb2 : (body == "") = false := beq_eq_false_iff_ne.mpr hb
    unfold walkParts
    by_cases ha : is_attachment p
    · rw [if_pos ha]
      by_cases hf : truthyStr p.filename
      · rw [if_pos hf]; exact ih _
      · rw [if_neg hf]; exact ih _
    · rw [if_neg ha, hb2]
      simp only [Bool.and_false, Bool.false_eq_true, if_false]
      exact ih _

theorem walkParts_body_first (dec : String → String) (parts : List EmailPart)
    (atts : List AttachmentMeta) :
    (walkParts dec parts "" atts).1 = firstPlainBody parts := by
  induction parts generalizing atts with
  | nil => rfl
  | cons p ps ih =>
    unfold walkParts firstPlainBody
    rw [List.find?_cons]
    simp only [beq_self_eq_true, Bool.and_true]
    by_cases ha : is_attachment p
    · have hc : plainBodyCandidate p = false := by
        simp [plainBodyCandidate, ha]
      rw [if_pos ha, hc]
      by_cases hf : truthyStr p.filename
      · rw [if_pos hf]; exact ih _
      · rw [if_neg hf]; exact ih _
    · rw [if_neg ha]
      by_cases hct : (p.contentType == "text/plain") = true
      · rw [if_pos hct]
        by_cases hpay : bytesTruthy p.payload
        · rw [if_pos hpay]
          by_cases hdt : p.decodedText = ""
          · have hc : plainBodyCandidate p = false := by
              simp [plainBodyCandidate, hdt]
            rw [hc, hdt]; exact ih _
          · have hc : plainBodyCandidate p = true := by
              simp [plainBodyCandidate, ha, hct, hpay, hdt]
            rw [hc]
            exact walkParts_body_const dec ps _ atts hdt
        · have hc : plainBodyCandidate p = false := by
            simp [plainBodyCandidate, hpay]
          rw [if_neg hpay, hc]; exact ih _
      · have hc : plainBodyCandidate p = false := by
          simp [plainBodyCandidate, hct]
        rw [if_neg hct, hc]; exact ih _

theorem walkParts_atts_record (dec : String → String) (parts : List EmailPart)
    (body : String) (atts : List AttachmentMeta) :
    (walkParts dec parts body atts).2 =
      atts ++ parts.filterMap (recordedAttachment dec) := by
  induction parts generalizing body atts with
  | nil => simp [walkParts]
  | cons p ps ih =>
    unfold walkParts
    rw [List.filterMap_cons]
    by_cases ha : is_attachment p
    · by_cases hf : truthyStr p.filename
      · have hr : recordedAttachment dec p =
            some { filename := dec (p.filename.getD ""), mime_type := p.contentType,
                   size_bytes := sizeBytes p.payload } := by
          simp [recordedAttachment, ha, hf]
        rw [if_pos ha, if_pos hf, hr, ih _ _, List.append_assoc]
        rfl
      · have hr : recordedAttachment dec p = none := by
          simp [recordedAttachment, hf]
        rw [if_pos ha, if_neg hf, hr, ih _ _]
    · have hr : recordedAttachment dec p = none := by
        simp [recordedAttachment, ha]
      rw [if_neg ha, hr]
      by_cases hg : (p.contentType == "text/plain" && body == "") = true
      · rw [if_pos hg]
        by_cases hpay : bytesTruthy p.payload
        · rw [if_pos hpay, ih _ _]
        · rw [if_neg hpay, ih _ _]
      · rw [if_neg hg, ih _ _]

/-- C4 counterexample: in `msgC4` the first text/plain non-attachment part
is `partEmptyPlain`, whose decoded payload is the empty string, yet the
parsed body text is the decoded payload "Hi" of the **later** plain part —
so the first plain part does not always win as claimed. -/
theorem parse_body_first_plain_cex :
    bodyTextOf (parse_email_file envC4 (fun s => s) "f") = "Hi" ∧
      claimedFirstPlainBody msgC4.parts = "" ∧ ("Hi" : String) ≠ "" :=
  ⟨rfl, rfl, by decide⟩

/-- C4 (amended): for a multipart message, the body text is the
(whitespace-stripped) decoded payload of the first text/plain part that is
not classified as an attachment **and has a truthy payload with non-empty
decoded text**; earlier plain parts with empty or missing payloads are
skipped, and once such a part is found all later plain parts are ignored. -/
theorem parse_body_first_nonempty_plain (env : ParseEnv) (dec : String → String)
    (path : String) (lines : List String) (msg : MimeMessage)
    (hf : env.fsFile path = some lines) (hl : ¬ lines.length < 2)
    (hp : env.parseMsg (strJoin (collectEmailLines (lines.drop 1))) = .ok msg)
    (hm : msg.isMultipart = true) :
    ∃ r, parse_email_file env dec path = .ok r ∧
      r.body_text = strStrip (firstPlainBody msg.parts) := by
  unfold parse_email_file
  rw [hf]
  dsimp only
  unfold archiveRead
  rw [if_neg hl]
  dsimp only
  rw [hp]
  dsimp only
  rw [hm, if_pos rfl]
  refine ⟨_, rfl, ?_⟩
  dsimp only
  rw [walkParts_body_first]

/-- Witness for `parse_body_first_nonempty_plain` on `envC4`. -/
theorem parse_body_first_nonempty_plain_witness :
    ∃ r, parse_email_file envC4 (fun s => s) "f" = .ok r ∧
      r.body_text = strStrip (firstPlainBody msgC4.parts) :=
  parse_body_first_nonempty_plain envC4 (fun s => s) "f" ["1", "Subject: x"]
    msgC4 rfl (by decide) rfl rfl

/-- C5 counterexample: `partNoName` is classified as an attachment (its
disposition mentions "attachment") but carries no filename, and the parser
records nothing for it — the attachments list stays empty. -/
theorem parse_attachments_record_cex :
    is_attachment partNoName = true ∧
      attachmentsOf (parse_email_file envC5 (fun s => s) "f") = [] :=
  ⟨rfl, rfl⟩

/-- C5 (amended): for a multipart message, the parts recorded in the
attachments list are exactly the attachment-classified parts **that carry a
truthy filename**, each with decoded filename, MIME type and payload byte
size (0 for missing/empty payloads), in tree-walk order with duplicate
filenames kept. -/
theorem parse_attachments_record (env : ParseEnv) (dec : String → String)
    (path : String) (lines : List String) (msg : MimeMessage)
    (hf : env.fsFile path = some lines) (hl : ¬ lines.length < 2)
    (hp : env.parseMsg (strJoin (collectEmailLines (lines.drop 1))) = .ok msg)
    (hm : msg.isMultipart = true) :
    ∃ r, parse_email_file env dec path = .ok r ∧
      r.attachments = msg.parts.filterMap (recordedAttachment dec) := by
  unfold parse_email_file
  rw [hf]
  dsimp only
  unfold archiveRead
  rw [if_neg hl]
  dsimp only
  rw [hp]
  dsimp only
  rw [hm, if_pos rfl]
  refine ⟨_, rfl, ?_⟩
  dsimp only
  rw [walkParts_atts_record, List.nil_append]

/-- Witness for `parse_attachments_record` on `envC5`. -/
theorem parse_attachments_record_witness :
    ∃ r, parse_email_file envC5 (fun s => s) "f" = .ok r ∧
      r.attachments = msgC5.parts.filterMap (recordedAttachment (fun s => s)) :=
  parse_attachments_record envC5 (fun s => s) "f" ["1", "Subject: x"]
    msgC5 rfl (by decide) rfl rfl

theorem threadLoop_map_resolve (env : MailFS) (hdb : env.dbExists = true)
    (ids : List String) :
    threadLoop env true ids = .ok (ids.map (resolveOpt env)) := by
  induction ids with
  | nil => rfl
  | cons m ms ih =>
    unfold threadLoop get_email_path
    rw [hdb, if_pos rfl, ih]
    unfold resolveOpt
    cases hr : get_email_path_run env m with
    | some p =>
      by_cases hp : p = ""
      · simp [hr, hp]
      · simp [hr, hp]
    | none => simp [hr]

theorem threadLoop_filterMap_resolve (env : MailFS) (hdb : env.dbExists = true)
    (ids : List String) :
    threadLoop env false ids = .ok ((ids.filterMap (resolveOpt env)).map some) := by
  induction ids with
  | nil => rfl
  | cons m ms ih =>
    unfold threadLoop get_email_path
    rw [hdb, if_pos rfl, ih]
    rw [List.filterMap_cons]
    unfold resolveOpt
    cases hr : get_email_path_run env m with
    | some p =>
      by_cases hp : p = ""
      · simp [hr, hp]
      · simp [hr, hp]
    | none => simp [hr]

/-- C7 (amended): for a seed Message-ID with a known **non-zero**
conversation identifier, `get_thread_paths` is order-preserving over the
index's Message-ID sequence: with `include_not_found` the i-th entry is the
resolution of the i-th Message-ID (`none` when unresolvable), and without it
the result is the order-preserving subsequence of resolvable entries. -/
theorem get_thread_paths_order (env : MailFS) (m : String) (c : Int)
    (ids : List String) (hdb : env.dbExists = true)
    (hc : env.conversationOf (normalizeMsgId m) = some c) (hc0 : c ≠ 0)
    (hids : get_thread_message_ids env c = .ok ids) :
    get_thread_paths env m true = .ok (ids.map (resolveOpt env)) ∧
      get_thread_paths env m false =
        .ok ((ids.filterMap (resolveOpt env)).map some) := by
  have htr : truthyInt (some c) = true := by simp [truthyInt, hc0]
  unfold get_thread_paths get_conversation_id
  rw [hdb, if_pos rfl, hc]
  dsimp only
  rw [htr]
  dsimp only [Option.getD]
  rw [hids]
  dsimp only
  by_cases hnil : ids = []
  · subst hnil
    exact ⟨by simp, by simp⟩
  · rw [if_neg hnil, if_neg hnil]
    exact ⟨threadLoop_map_resolve env hdb ids,
      threadLoop_filterMap_resolve env hdb ids⟩

/-- Witness for `get_thread_paths_order` on `envW7` (conversation 1 with a
single unresolvable member). -/
theorem get_thread_paths_order_witness :
    get_thread_paths envW7 "<s>" true = .ok (["<a>"].map (resolveOpt envW7)) ∧
      get_thread_paths envW7 "<s>" false =
        .ok ((["<a>"].filterMap (resolveOpt envW7)).map some) :=
  get_thread_paths_order envW7 "<s>" 1 ["<a>"] rfl rfl (by decide) rfl

/-- C7 counterexample: in `envC7` the seed's conversation identifier is the
known value 0 and the index lists one member for conversation 0, yet
`get_thread_paths` returns the empty list instead of a one-entry list — the
order-preserving correspondence fails because `if not conversation_id`
treats the falsy id 0 as unknown. -/
theorem get_thread_paths_zero_conversation_cex :
    get_thread_paths envC7 "<s>" true = .ok [] ∧
      get_thread_message_ids envC7 0 = .ok ["<a>"] ∧
      ["<a>"].map (resolveOpt envC7) ≠ [] :=
  ⟨rfl, rfl, by decide⟩

theorem extractedNames_append (l : List ExtractedItem) (i : ExtractedItem) :
    extractedNames (l ++ [i]) = extractedNames l ∪ {i.filename} := by
  simp [extractedNames, List.toFinset_append]

theorem extractLoop_partition_inv (env : ExtractEnv) (dec : String → String)
    (mdir : String) (parts : List EmailPart) :
    ∀ ext pend ext2 pend2,
      extractLoop env dec mdir parts ext pend = .ok (ext2, pend2) →
      extractedNames ext2 ∪ pend2 = extractedNames ext ∪ pend ∧
        (extractedNames ext ∩ pend = ∅ → extractedNames ext2 ∩ pend2 = ∅) := by
  induction parts with
  | nil =>
    intro ext pend ext2 pend2 h
    unfold extractLoop at h
    injection h with h
    injection h with h1 h2
    subst h1; subst h2
    exact ⟨rfl, fun hd => hd⟩
  | cons p ps ih =>
    intro ext pend ext2 pend2 h
    unfold extractLoop at h
    by_cases ha : (is_attachment p && truthyStr p.filename) = true
    · rw [if_pos ha] at h
      set decName := dec (p.filename.getD "") with hdn
      by_cases hmem : decName ∈ pend
      · rw [if_pos hmem] at h
        dsimp only at h
        set p2 := if (!bytesTruthy p.payload || (p.payload.getD []).length < 100) = true
          then env.fsSearch decName p.payload else p.payload with hp2
        by_cases hbt : bytesTruthy p2 = true
        · rw [if_pos hbt] at h
          by_cases hw : env.writeOk (pathJoin mdir (String.mk (decName.toList.map
              (fun c => if c = '/' || c = '\\' || c = ':' then '_' else c)))) = true
          · rw [if_pos hw] at h
            obtain ⟨hu, hd⟩ := ih _ _ _ _ h
            rw [extractedNames_append] at hu hd
            constructor
            · rw [hu, Finset.union_assoc, ← Finset.insert_eq,
                Finset.insert_erase hmem]
            · intro hd0
              apply hd
              rw [Finset.eq_empty_iff_forall_not_mem]
              intro x hx
              rw [Finset.mem_inter, Finset.mem_union, Finset.mem_singleton,
                Finset.mem_erase] at hx
              obtain ⟨hxl, hxne, hxP⟩ := hx
              rcases hxl with hxE | rfl
              · exact Finset.eq_empty_iff_forall_not_mem.mp hd0 x
                  (Finset.mem_inter.mpr ⟨hxE, hxP⟩)
              · exact hxne rfl
          · rw [if_neg hw] at h
            exact Except.noConfusion h
        · rw [if_neg hbt] at h
          exact ih _ _ _ _ h
      · rw [if_neg hmem] at h
        exact ih _ _ _ _ h
    · rw [if_neg ha] at h
      exact ih _ _ _ _ h

/-- C2: every successful `extract_attachments` call with a non-empty
requested-filenames list partitions the requested filename set — the set of
extracted names and the not-found set are disjoint, and their union is
exactly the set of requested filenames. -/
theorem extract_attachments_partition (env : ExtractEnv) (dec : String → String)
    (file_path message_id : String) (filenames : List String)
    (output_dir : Option String) (base mdir : String)
    (ext : List ExtractedItem) (nf : Finset String) (hne : filenames ≠ [])
    (hok : (extract_attachments env dec file_path message_id filenames
      output_dir).1 = .ok base mdir ext nf) :
    extractedNames ext ∪ nf = filenames.toFinset ∧
      extractedNames ext ∩ nf = ∅ := by
  unfold extract_attachments at hok
  by_cases hfe : env.fileExists = false
  · rw [if_pos hfe] at hok
    exact ExtractResult.noConfusion hok
  · rw [if_neg hfe, if_neg hne] at hok
    cases har : archiveRead env.lines with
    | error e =>
      rw [har] at hok
      exact ExtractResult.noConfusion hok
    | ok raw =>
      rw [har] at hok
      dsimp only at hok
      cases hpp : env.parseParts raw with
      | error e =>
        exact ExtractResult.noConfusion (hpp ▸ hok)
      | ok parts =>
        rw [hpp] at hok
        dsimp only at hok
        by_cases hmk : env.mkdirOk = false
        · rw [if_pos hmk] at hok
          exact ExtractResult.noConfusion hok
        · rw [if_neg hmk] at hok
          split at hok
          · exact ExtractResult.noConfusion hok
          · rename_i r heq
            dsimp only at hok
            injection hok with hb hm he hn
            subst he; subst hn
            have heq2 := heq
            rw [← Prod.mk.eta (p := r)] at heq2
            obtain ⟨hu, hd⟩ :=
              extractLoop_partition_inv env dec _ parts [] filenames.toFinset
                r.1 r.2 heq2
            have hempty : extractedNames [] = (∅ : Finset String) := rfl
            rw [hempty, Finset.empty_union] at hu
            refine ⟨hu, hd ?_⟩
            rw [hempty, Finset.empty_inter]

/-- Witness for `extract_attachments_partition` on `envW` requesting the
single filename "a" from a message with no parts. -/
theorem extract_attachments_partition_witness :
    (["a"] : List String) ≠ [] ∧
      (extractedNames [] ∪ (["a"] : List String).toFinset =
          (["a"] : List String).toFinset ∧
        extractedNames [] ∩ (["a"] : List String).toFinset = ∅) :=
  ⟨by decide,
    extract_attachments_partition envW (fun s => s) "f" "<m>" ["a"] none
      "/tmp/mail-mcp-attachments" "/tmp/mail-mcp-attachments/m" []
      (["a"] : List String).toFinset (by decide) rfl⟩

/-- C10 (amended): when the archive file exists, a call with an empty
requested-filenames list fails with exactly the error message
"No filenames specified for extraction", and no directory creation is
attempted. -/
theorem extract_attachments_empty_failure (env : ExtractEnv)
    (dec : String → String) (file_path message_id : String)
    (output_dir : Option String) (hfe : env.fileExists = true) :
    extract_attachments env dec file_path message_id [] output_dir =
      (.failure "No filenames specified for extraction", []) := by
  unfold extract_attachments
  rw [hfe]
  simp

/-- Witness for `extract_attachments_empty_failure` on `envW`. -/
theorem extract_attachments_empty_failure_witness :
    extract_attachments envW (fun s => s) "f" "<m>" [] none =
      (.failure "No filenames specified for extraction", []) :=
  extract_attachments_empty_failure envW (fun s => s) "f" "<m>" none rfl

/-- C10 counterexample: when the archive file does not exist, the very same
empty-filenames call fails with the file-not-found message instead of the
claimed "No filenames specified for extraction" message. -/
theorem extract_attachments_empty_cex :
    extract_attachments envC10 (fun s => s) "p" "<m>" [] none =
      (.failure "File not found: p", []) ∧
      ExtractResult.failure "File not found: p" ≠
        ExtractResult.failure "No filenames specified for extraction" :=
  ⟨rfl, by decide⟩

theorem cleanupLoop_ok (env : CleanupEnv) (base : String)
    (hrm : ∀ p, env.rmtreeOk p = true) :
    ∀ ids dirs cl nf, ∃ cl2 nf2,
      cleanupLoop env base ids dirs cl nf = .ok base cl2 nf2 false ∧
        ∀ m, (m ∈ nf ∨ (m ∈ ids ∧ stripAngle m ∉ dirs)) → m ∈ nf2 := by
  intro ids
  induction ids with
  | nil =>
    intro dirs cl nf
    refine ⟨cl, nf, rfl, ?_⟩
    intro m hm
    rcases hm with hm | ⟨hm, _⟩
    · exact hm
    · exact absurd hm (List.not_mem_nil m)
  | cons m0 ms ih =>
    intro dirs cl nf
    unfold cleanupLoop
    by_cases hd : stripAngle m0 ∈ dirs
    · rw [if_pos hd, hrm _, if_pos rfl]
      obtain ⟨cl2, nf2, hloop, hnf⟩ := ih (dirs.erase (stripAngle m0)) _ nf
      refine ⟨cl2, nf2, hloop, ?_⟩
      intro m hm
      rcases hm with hm | ⟨hm, hnd⟩
      · exact hnf m (Or.inl hm)
      · rcases List.mem_cons.mp hm with rfl | hm2
        · exact absurd hd hnd
        · refine hnf m (Or.inr ⟨hm2, ?_⟩)
          intro hmem
          exact hnd (List.mem_of_mem_erase hmem)
    · rw [if_neg hd]
      obtain ⟨cl2, nf2, hloop, hnf⟩ := ih dirs cl (nf ++ [m0])
      refine ⟨cl2, nf2, hloop, ?_⟩
      intro m hm
      rcases hm with hm | ⟨hm, hnd⟩
      · exact hnf m (Or.inl (List.mem_append_left _ hm))
      · rcases List.mem_cons.mp hm with rfl | hm2
        · exact hnf m (Or.inl (List.mem_append_right _ (List.mem_singleton_self m)))
        · exact hnf m (Or.inr ⟨hm2, hnd⟩)

/-- C8: when removal itself never fails, `cleanup_attachments` always
returns a success result, and every message-id whose working directory does
not exist (in particular every id when the base directory itself does not
exist) is reported under `not_found` — absence alone never yields a
failure. -/
theorem cleanup_attachments_absent_ok (env : CleanupEnv)
    (message_ids : List String) (base_dir : Option String)
    (hrm : ∀ p, env.rmtreeOk p = true) :
    match cleanup_attachments env message_ids base_dir with
    | .ok _ _ nf _ =>
      ∀ m ∈ message_ids,
        (env.baseExists (resolveBaseDir env base_dir) = false ∨
          stripAngle m ∉ env.dirsUnder (resolveBaseDir env base_dir)) →
        m ∈ nf
    | .failure _ _ => False := by
  unfold cleanup_attachments
  by_cases hb : env.baseExists (resolveBaseDir env base_dir) = false
  · rw [if_pos hb]
    intro m hm _
    exact hm
  · rw [if_neg hb]
    obtain ⟨cl2, nf2, hloop, hnf⟩ :=
      cleanupLoop_ok env (resolveBaseDir env base_dir) hrm message_ids
        (env.dirsUnder (resolveBaseDir env base_dir)) [] []
    rw [hloop]
    intro m hm habs
    rcases habs with habs | habs
    · exact absurd habs hb
    · exact hnf m (Or.inr ⟨hm, habs⟩)

/-- Witness for `cleanup_attachments_absent_ok` on `envC8`, whose base
directory does not exist. -/
theorem cleanup_attachments_absent_ok_witness :
    match cleanup_attachments envC8 ["<m>"] none with
    | .ok _ _ nf _ =>
      ∀ m ∈ ["<m>"],
        (envC8.baseExists (resolveBaseDir envC8 none) = false ∨
          stripAngle m ∉ envC8.dirsUnder (resolveBaseDir envC8 none)) →
        m ∈ nf
    | .failure _ _ => False :=
  cleanup_attachments_absent_ok envC8 ["<m>"] none (fun _ => rfl)
